import Mathlib

/-!
Shallow embedding of `src/satis_analysis.py`: a two-period satisfaction
decomposition pipeline over grouped rows.

Numbers are modelled as exact rationals.  A pandas/numpy missing value
(`NaN` / `pd.NA`) is modelled as `none : Option ℚ`; numpy comparison
semantics (`NaN cmp x = False`) and pandas skip-NA summation are embedded
explicitly.  Division by zero in the source only arises as `0/0`
(counts are non-negative sums), which numpy turns into `NaN`, hence it is
modelled as `none`.  A pandas `KeyError` (access to an absent column) is
modelled with `Except String`.
-/

/-- A float-valued cell: `none` models NaN/NA. -/
abbrev FVal := Option ℚ

/-- NaN-propagating addition. -/
def fadd : FVal → FVal → FVal
  | some a, some b => some (a + b)
  | _, _ => none

/-- NaN-propagating subtraction. -/
def fsub : FVal → FVal → FVal
  | some a, some b => some (a - b)
  | _, _ => none

/-- NaN-propagating multiplication. -/
def fmul : FVal → FVal → FVal
  | some a, some b => some (a * b)
  | _, _ => none

/-- Comparison `x > c` with numpy semantics: any comparison with NaN is `False`. -/
def fgt (x : FVal) (c : ℚ) : Bool :=
  match x with
  | some v => decide (c < v)
  | none => false

/-- Comparison `x < c` with numpy semantics: any comparison with NaN is `False`. -/
def flt (x : FVal) (c : ℚ) : Bool :=
  match x with
  | some v => decide (v < c)
  | none => false

/-- Comparison `x <= c` with numpy semantics: any comparison with NaN is `False`. -/
def fle (x : FVal) (c : ℚ) : Bool :=
  match x with
  | some v => decide (v ≤ c)
  | none => false

/-- Comparison `x > y` for two cells, `False` when either is NaN. -/
def fgtF (x y : FVal) : Bool :=
  match x, y with
  | some a, some b => decide (b < a)
  | _, _ => false

/-- Absolute value of a cell, NaN-propagating. -/
def fabs : FVal → FVal
  | some v => some |v|
  | none => none

/-- Row-wise forward fill across two columns (`ffill(axis=1)` on a pair):
keep the second cell unless it is NA, in which case take the first. -/
def ffillCell (fst snd : FVal) : FVal :=
  match snd with
  | none => fst
  | some v => some v

@[simp]
theorem fadd_some_some (a b : ℚ) : fadd (some a) (some b) = some (a + b) := rfl

@[simp]
theorem fadd_none_left (x : FVal) : fadd none x = none := rfl

@[simp]
theorem fadd_none_right (x : FVal) : fadd x none = none := by cases x <;> rfl

@[simp]
theorem fsub_some_some (a b : ℚ) : fsub (some a) (some b) = some (a - b) := rfl

@[simp]
theorem fsub_none_left (x : FVal) : fsub none x = none := rfl

@[simp]
theorem fsub_none_right (x : FVal) : fsub x none = none := by cases x <;> rfl

@[simp]
theorem fmul_some_some (a b : ℚ) : fmul (some a) (some b) = some (a * b) := rfl

@[simp]
theorem fmul_none_left (x : FVal) : fmul none x = none := rfl

@[simp]
theorem fmul_none_right (x : FVal) : fmul x none = none := by cases x <;> rfl

@[simp]
theorem fgt_some (v c : ℚ) : fgt (some v) c = decide (c < v) := rfl

@[simp]
theorem fgt_none (c : ℚ) : fgt none c = false := rfl

@[simp]
theorem flt_some (v c : ℚ) : flt (some v) c = decide (v < c) := rfl

@[simp]
theorem flt_none (c : ℚ) : flt none c = false := rfl

@[simp]
theorem fle_some (v c : ℚ) : fle (some v) c = decide (v ≤ c) := rfl

@[simp]
theorem fle_none (c : ℚ) : fle none c = false := rfl

@[simp]
theorem fgtF_some_some (a b : ℚ) : fgtF (some a) (some b) = decide (b < a) := rfl

@[simp]
theorem fgtF_none_left (x : FVal) : fgtF none x = false := rfl

@[simp]
theorem fgtF_none_right (x : FVal) : fgtF x none = false := by cases x <;> rfl

@[simp]
theorem fabs_some (v : ℚ) : fabs (some v) = some |v| := rfl

@[simp]
theorem fabs_none : fabs none = none := rfl

@[simp]
theorem ffillCell_some (x : FVal) (v : ℚ) : ffillCell x (some v) = some v := rfl

@[simp]
theorem ffillCell_none (x : FVal) : ffillCell x none = x := rfl

/-- Row-wise `sum(axis=1)` of pandas with default `skipna=True`:
missing cells contribute 0. -/
def skipnaSum3 (a b c : FVal) : ℚ :=
  a.getD 0 + b.getD 0 + c.getD 0

/-- Banker's rounding (`np.round` rounds half to even) of a rational to
the nearest integer. -/
def roundHalfEven (q : ℚ) : ℤ :=
  let f : ℤ := ⌊q⌋
  let frac : ℚ := q - f
  if frac < 1/2 then f
  else if 1/2 < frac then f + 1
  else if f % 2 = 0 then f else f + 1

/-- Models `np.round(x, 6)`. -/
def round6 (q : ℚ) : ℚ :=
  (roundHalfEven (q * 1000000) : ℚ) / 1000000

/-- One raw input row, already projected onto the requested dimension
combination: `key` is the group key (tuple of dimension values), `score`
is `总评分`, `count` is `总评价量`. -/
structure SrcRow (K : Type) where
  key : K
  score : ℚ
  count : ℚ
deriving Repr, DecidableEq

/-- One row of the per-group analysis table.  Fields added by later
pipeline stages start out as `none` / `""` / `0` and are overwritten by
the stage that computes them (mirroring column assignment in pandas). -/
structure GRow (K : Type) where
  key : K
  /-- Column `现期_总评分`. -/
  curScore : ℚ
  /-- Column `现期_总评价量`. -/
  curCount : ℚ
  /-- Column `基期_总评分`. -/
  baseScore : ℚ
  /-- Column `基期_总评价量`. -/
  baseCount : ℚ
  /-- Column `基期服务满意度`. -/
  baseRate : FVal := none
  /-- Column `现期服务满意度` (after the row-wise ffill). -/
  curRate : FVal := none
  /-- Column `基期评价权重`. -/
  baseWeight : FVal := none
  /-- Column `现期评价权重`. -/
  curWeight : FVal := none
  /-- Column `服务满意度差值`. -/
  deltaRate : FVal := none
  /-- Column `评价权重差值`. -/
  deltaWeight : FVal := none
  /-- Column `服务满意度影响值`. -/
  serviceEffect : FVal := none
  /-- Column `评价权重影响值`. -/
  weightEffect : FVal := none
  /-- Column `交互项影响值`. -/
  interEffect : FVal := none
  /-- Column `总影响值`. -/
  totalEffect : ℚ := 0
  /-- Column `替代平均质量`. -/
  replQuality : FVal := none
  /-- Column `净替代质量差`. -/
  netReplGap : FVal := none
  /-- Column `留一法净影响`. -/
  looNetImpact : FVal := none
  /-- Column `运营评价标签`. -/
  tag : String := ""
  /-- Column `转化影响值`. -/
  normEffect : ℚ := 0
deriving Repr, DecidableEq

section Pipeline

variable {K : Type} [DecidableEq K]

/-- Keys of the outer join: every group key appearing in either period,
without duplicates, in order of first appearance. -/
def keysOf (cur base : List (SrcRow K)) : List K :=
  ((cur ++ base).map SrcRow.key).dedup

/-- Value of `groupby(dims)['总评分'].sum()` at one key; a key absent from the
period aggregates to 0 (the outer join's `fillna(0)`). -/
def aggScore (rows : List (SrcRow K)) (k : K) : ℚ :=
  ((rows.filter (fun r => r.key = k)).map SrcRow.score).sum

/-- Value of `groupby(dims)['总评价量'].sum()` at one key; absent keys give 0. -/
def aggCount (rows : List (SrcRow K)) (k : K) : ℚ :=
  ((rows.filter (fun r => r.key = k)).map SrcRow.count).sum

/-- Lines 139–152 of `satis_analysis.py` for a single group, given the
two period-wide count totals `BT` (base) and `CT` (current):
ratios with a zero count giving NA, the one-directional `ffill(axis=1)`
(current filled from base), weights, deltas, the three effect terms and
their skip-NA row sum.  A zero total gives a `0/0 = NaN` weight. -/
def mkGRow (BT CT : ℚ) (cS cC bS bC : K → ℚ) (k : K) : GRow K :=
  let baseRate : FVal := if bC k = 0 then none else some (bS k / bC k)
  let curRate0 : FVal := if cC k = 0 then none else some (cS k / cC k)
  let curRate : FVal := ffillCell baseRate curRate0
  let baseWeight : FVal := if BT = 0 then none else some (bC k / BT)
  let curWeight : FVal := if CT = 0 then none else some (cC k / CT)
  let deltaRate := fsub curRate baseRate
  let deltaWeight := fsub curWeight baseWeight
  let serviceEffect := fmul baseWeight deltaRate
  let weightEffect := fmul baseRate deltaWeight
  let interEffect := fmul deltaRate deltaWeight
  { key := k, curScore := cS k, curCount := cC k,
    baseScore := bS k, baseCount := bC k,
    baseRate := baseRate, curRate := curRate,
    baseWeight := baseWeight, curWeight := curWeight,
    deltaRate := deltaRate, deltaWeight := deltaWeight,
    serviceEffect := serviceEffect, weightEffect := weightEffect,
    interEffect := interEffect,
    totalEffect := skipnaSum3 serviceEffect weightEffect interEffect }

/-- The full (pre-threshold) decomposition table for given keys and
aggregate sums: the weight denominators are the table-wide count totals. -/
def decomposeTable (keys : List K) (cS cC bS bC : K → ℚ) : List (GRow K) :=
  let BT := (keys.map bC).sum
  let CT := (keys.map cC).sum
  keys.map (mkGRow BT CT cS cC bS bC)

/-- Aggregation plus decomposition (lines 134–152): outer join of the two
per-period groupby-sums, then the per-group metric decomposition. -/
def decompose (cur base : List (SrcRow K)) : List (GRow K) :=
  decomposeTable (keysOf cur base) (aggScore cur) (aggCount cur)
    (aggScore base) (aggCount base)

/-- Embeds `add_replacement_quality` (lines 6–25): splits rows into growing
(`评价权重差值 > 0`) and shrinking (`< 0`) groups; if either side is
empty both new columns stay NA; otherwise growing rows get the
|Δweight|-weighted mean of shrinking rows' current ratio (a pandas
`.sum()`, which skips NA terms) and their gap to it. -/
def addReplacementQuality (rows : List (GRow K)) : List (GRow K) :=
  let grow := rows.filter (fun r => fgt r.deltaWeight 0)
  let loss := rows.filter (fun r => flt r.deltaWeight 0)
  if grow.isEmpty ∨ loss.isEmpty then
    rows.map (fun r => { r with replQuality := none, netReplGap := none })
  else
    let totalLoss : ℚ := (loss.map (fun r => |r.deltaWeight.getD 0|)).sum
    let sReplaced : ℚ :=
      ((loss.map (fun r =>
        (fmul r.curRate (fabs r.deltaWeight)).getD 0)).sum) / totalLoss
    rows.map (fun r =>
      if fgt r.deltaWeight 0 then
        { r with replQuality := some sReplaced,
                 netReplGap := fsub r.curRate (some sReplaced) }
      else { r with replQuality := none, netReplGap := none })

/-- The `留一法净影响` value of one row (lines 37–44), given the four
table-wide totals: `(S_cur_excl - S_base_all) - (S_cur_all - S_base_all)`
with NaN-propagating arithmetic. -/
def looRow (curTotS curTotC baseTotS baseTotC : ℚ) (r : GRow K) : GRow K :=
  let sCurAll : FVal := if curTotC = 0 then none else some (curTotS / curTotC)
  let sBaseAll : FVal := if baseTotC = 0 then none else some (baseTotS / baseTotC)
  let exclScore := curTotS - r.curScore
  let exclEval := curTotC - r.curCount
  let sCurExcl : FVal := if exclEval = 0 then none else some (exclScore / exclEval)
  { r with looNetImpact := fsub (fsub sCurExcl sBaseAll) (fsub sCurAll sBaseAll) }

/-- Embeds `add_leave_one_out` (lines 28–45). -/
def addLeaveOneOut (rows : List (GRow K)) : List (GRow K) :=
  let curTotS := (rows.map GRow.curScore).sum
  let curTotC := (rows.map GRow.curCount).sum
  let baseTotS := (rows.map GRow.baseScore).sum
  let baseTotC := (rows.map GRow.baseCount).sum
  rows.map (looRow curTotS curTotC baseTotS baseTotC)

/-- The sequential mask-overwrite of `add_op_tag` (lines 48–104) for a
single row, with the default thresholds `delta_thresh = 0.005`,
`replace_thresh = 0.01`, `dominance_ratio = 1.5`.  Each later mask
overwrites the label of any earlier one; comparisons with NaN are false. -/
def tagOf (r : GRow K) : String :=
  let dS := r.deltaRate
  let dW := r.deltaWeight
  let impact := r.totalEffect
  let gap := r.netReplGap
  let t0 := "非主要变动影响"
  let t1 := if fgt dS (5/1000) && fgt dW (5/1000) && decide (0 < impact)
               && fgt gap (1/100) then "核心贡献者（服务提升，评价流量提升）" else t0
  let t2 := if fgt dS (5/1000) && fgt dW (5/1000) && decide (0 < impact)
               && flt gap (-(1/100)) then "服务提升，但抢了更多评价流量" else t1
  let t3 := if fgt dS (5/1000) && flt dW (-(5/1000)) && decide (0 < impact)
            then "服务提升，但流量丢失（建议关注回流）" else t2
  let t4 := if flt dS (-(5/1000)) && fgt dW (5/1000) && decide (0 < impact)
               && fgt gap (1/100) then "服务下降但仍属正向贡献" else t3
  let t5 := if flt dS (-(5/1000)) && fgt dW (5/1000) && decide (0 < impact)
               && flt gap (-(1/100)) then "服务下降评价流量却增加（需关注）" else t4
  let t6 := if flt dS (-(5/1000)) && fgt dW (5/1000) && decide (impact ≤ 0)
            then "服务下降评价流量却增加（需关注）" else t5
  let t7 := if flt dS 0 && flt dW 0 && decide (impact < 0) then
              if fgtF (fabs r.serviceEffect) (fmul (some (3/2)) (fabs r.weightEffect))
              then "服务下降，主要因服务质量下降"
              else if fgtF (fabs r.weightEffect) (fmul (some (3/2)) (fabs r.serviceEffect))
              then "服务下降，主要因流量下降"
              else "服务下降，服务+流量双重影响"
            else t6
  let t8 := if fle (fabs dS) (5/1000) && fle (fabs dW) (5/1000)
               && decide (|impact| ≤ 5/1000) then "基期或现期数据不足" else t7
  t8

/-- Embeds `add_op_tag` at table level.  Line 52 reads column `净替代质量差`
unconditionally; when the column was never created (method 2 disabled)
pandas raises a `KeyError`, modelled as `Except.error`. -/
def addOpTag (hasReplCols : Bool) (rows : List (GRow K)) :
    Except String (List (GRow K)) :=
  if hasReplCols then
    Except.ok (rows.map (fun r => { r with tag := tagOf r }))
  else
    Except.error "KeyError: 净替代质量差"

/-- Insertion of one row into a list sorted by descending `|总影响值|`. -/
def insertByAbsDesc (r : GRow K) : List (GRow K) → List (GRow K)
  | [] => [r]
  | x :: xs =>
    if |x.totalEffect| < |r.totalEffect| then r :: x :: xs
    else x :: insertByAbsDesc r xs

/-- Models `sort_values('总影响值', key=abs, ascending=False)`. -/
def sortByAbsDesc (rows : List (GRow K)) : List (GRow K) :=
  rows.foldr insertByAbsDesc []

/-- Embeds `zy_satis_analy` (lines 130–166): aggregate and decompose, filter by
the minimum current evaluation count, optionally add the replacement
columns, add leave-one-out, tag, sort. -/
def zySatisAnaly (cur base : List (SrcRow K)) (minEva : ℚ)
    (enableMethod2 : Bool) : Except String (List (GRow K)) := do
  let g := decompose cur base
  let g := g.filter (fun r => minEva ≤ r.curCount)
  let g := if enableMethod2 then addReplacementQuality g else g
  let g := addLeaveOneOut g
  let g ← addOpTag enableMethod2 g
  return sortByAbsDesc g

/-- Scale factor `k_pos` of `sign_split_compress` (line 119; Python's
`if L_pos` truthiness makes it 0 when the positive mass is 0). -/
def kposOf (Lpos delta : ℚ) : ℚ := if Lpos = 0 then 0 else max 0 delta / Lpos

/-- Scale factor `k_neg` of `sign_split_compress` (line 120). -/
def knegOf (Lneg delta : ℚ) : ℚ := if Lneg = 0 then 0 else max 0 (-delta) / Lneg

/-- The scale applied by `sign_split_compress` to one `总影响值` cell,
given the table's signed sum `Δ` and positive/negative masses. -/
def sscScale (Lpos Lneg delta x : ℚ) : ℚ :=
  if 0 < x then x * kposOf Lpos delta else if x < 0 then x * knegOf Lneg delta else 0

/-- Positive mass `L_pos` of a list of `总影响值` values. -/
def posMass (ts : List ℚ) : ℚ := ((ts.filter (fun x => 0 < x)).map id).sum

/-- Negative mass `L_neg` (absolute value of the negative sum). -/
def negMass (ts : List ℚ) : ℚ := ((ts.filter (fun x => x < 0)).map (fun x => |x|)).sum

/-- Embeds `sign_split_compress` (lines 108–127): rescales positive and negative
impact values so each side carries its share of the signed table sum,
then writes the result rounded to 6 decimals. -/
def signSplitCompress (rows : List (GRow K)) : List (GRow K) :=
  let ts := rows.map GRow.totalEffect
  let delta := ts.sum
  let Lpos := posMass ts
  let Lneg := negMass ts
  rows.map (fun r =>
    { r with normEffect := round6 (sscScale Lpos Lneg delta r.totalEffect) })

end Pipeline

/-- A test row carrying only a prescribed `总影响值` (all derived cells
missing), for exercising `sign_split_compress` in isolation. -/
def onlyTotal (t : ℚ) : GRow ℕ :=
  { key := 0, curScore := 0, curCount := 0, baseScore := 0, baseCount := 0,
    totalEffect := t }

/-! ## Concrete inputs used in witnesses and counterexamples -/

/-- Current-period rows with group 1 present only in the current period. -/
def curOnlyCur : List (SrcRow ℕ) := [⟨0, 8, 10⟩, ⟨1, 5, 10⟩]

/-- Base-period rows lacking group 1. -/
def curOnlyBase : List (SrcRow ℕ) := [⟨0, 8, 10⟩]

/-- Current-period rows of a two-group example where group 1 falls below
the evaluation threshold 50. -/
def threshCur : List (SrcRow ℕ) := [⟨0, 100, 100⟩, ⟨1, 10, 10⟩]

/-- Base-period rows of the thresholding example. -/
def threshBase : List (SrcRow ℕ) := [⟨0, 50, 100⟩, ⟨1, 5, 10⟩]

/-- A two-row table whose base-period counts are all zero. -/
def zeroBaseRows : List (GRow ℕ) :=
  [{ key := 0, curScore := 1, curCount := 1, baseScore := 0, baseCount := 0 },
   { key := 1, curScore := 1, curCount := 1, baseScore := 0, baseCount := 0 }]

/-! ## General helper lemmas -/

theorem sum_map_ratsub {α : Type} (l : List α) (f g : α → ℚ) :
    (l.map (fun k => f k - g k)).sum = (l.map f).sum - (l.map g).sum := by
  induction l with
  | nil => simp
  | cons x xs ih => simp [ih]; ring

theorem sum_map_ratdiv {α : Type} (l : List α) (f : α → ℚ) (c : ℚ) :
    (l.map (fun k => f k / c)).sum = (l.map f).sum / c := by
  induction l with
  | nil => simp
  | cons x xs ih => simp [ih]; ring

/-- Per-row value of the three-term decomposition when both period ratios
are defined for the group: the telescoping form `cS/CT - bS/BT`. -/
theorem mkGRow_totalEffect_eq {K : Type} (BT CT : ℚ) (cS cC bS bC : K → ℚ)
    (k : K) (hb : bC k ≠ 0) (hBT : BT ≠ 0) (hCT : CT ≠ 0)
    (hc : cC k = 0 → cS k = 0) :
    (mkGRow BT CT cS cC bS bC k).totalEffect = cS k / CT - bS k / BT := by
  by_cases h : cC k = 0
  · have hs := hc h
    simp [mkGRow, fsub, fmul, skipnaSum3, h, hs, hb, hBT, hCT]
    field_simp
  · simp [mkGRow, fsub, fmul, skipnaSum3, h, hb, hBT, hCT]
    field_simp
    ring

/-! ## C1 -/

/-- C1 (amended): the sum of `总影响值` over the full pre-threshold
decomposition table equals `cur_ratio_all - base_ratio_all` (the
period-wide score total over count total difference) provided both period
totals are nonzero, every group has a nonzero base-period count (no group
present only in the current period), and a zero current count comes with
a zero current score.  Exact rational closure, hence within any
floating-point tolerance. -/
theorem c1_closure_without_cur_only_groups {K : Type} [DecidableEq K]
    (keys : List K) (cS cC bS bC : K → ℚ)
    (hBT : (keys.map bC).sum ≠ 0) (hCT : (keys.map cC).sum ≠ 0)
    (hb : ∀ k ∈ keys, bC k ≠ 0) (hc : ∀ k ∈ keys, cC k = 0 → cS k = 0) :
    ((decomposeTable keys cS cC bS bC).map GRow.totalEffect).sum
      = (keys.map cS).sum / (keys.map cC).sum
        - (keys.map bS).sum / (keys.map bC).sum := by
  unfold decomposeTable
  rw [List.map_map]
  have h1 : keys.map
        (GRow.totalEffect ∘ mkGRow ((keys.map bC).sum) ((keys.map cC).sum) cS cC bS bC)
      = keys.map (fun k => cS k / (keys.map cC).sum - bS k / (keys.map bC).sum) := by
    apply List.map_congr_left
    intro k hk
    exact mkGRow_totalEffect_eq _ _ cS cC bS bC k (hb k hk) hBT hCT (hc k hk)
  rw [h1, sum_map_ratsub, sum_map_ratdiv, sum_map_ratdiv]

/-- Witness for C1 at the two-group input `threshCur`/`threshBase` where
both groups have data in both periods. -/
theorem c1_closure_witness :
    (((keysOf threshCur threshBase).map (aggCount threshBase)).sum ≠ 0
      ∧ ((keysOf threshCur threshBase).map (aggCount threshCur)).sum ≠ 0
      ∧ (∀ k ∈ keysOf threshCur threshBase, aggCount threshBase k ≠ 0)
      ∧ (∀ k ∈ keysOf threshCur threshBase,
           aggCount threshCur k = 0 → aggScore threshCur k = 0))
    ∧ ((decompose threshCur threshBase).map GRow.totalEffect).sum
        = ((keysOf threshCur threshBase).map (aggScore threshCur)).sum
            / ((keysOf threshCur threshBase).map (aggCount threshCur)).sum
          - ((keysOf threshCur threshBase).map (aggScore threshBase)).sum
            / ((keysOf threshCur threshBase).map (aggCount threshBase)).sum :=
  ⟨⟨by norm_num [keysOf, aggCount, threshCur, threshBase, List.dedup],
    by norm_num [keysOf, aggCount, threshCur, threshBase, List.dedup],
    by norm_num [keysOf, aggCount, threshCur, threshBase, List.dedup],
    by norm_num [keysOf, aggCount, aggScore, threshCur, threshBase, List.dedup]⟩,
    c1_closure_without_cur_only_groups (keysOf threshCur threshBase)
      (aggScore threshCur) (aggCount threshCur)
      (aggScore threshBase) (aggCount threshBase)
      (by norm_num [keysOf, aggCount, threshCur, threshBase, List.dedup])
      (by norm_num [keysOf, aggCount, threshCur, threshBase, List.dedup])
      (by norm_num [keysOf, aggCount, threshCur, threshBase, List.dedup])
      (by norm_num [keysOf, aggCount, aggScore, threshCur, threshBase, List.dedup])⟩

/-- Counterexample to C1 as stated: with group 1 present only in the
current period, the pre-threshold table's `总影响值` sums to `-2/5`
while `cur_ratio_all - base_ratio_all = 13/20 - 8/10 = -3/20`; the gap is
`1/4`, far beyond floating-point tolerance.  (The cur-only group's three
effect cells are all NaN, so its skip-NA row sum contributes 0 instead of
its actual share of the current aggregate.) -/
theorem c1_counterexample :
    ((decompose curOnlyCur curOnlyBase).map GRow.totalEffect).sum = -(2/5)
    ∧ (curOnlyCur.map SrcRow.score).sum / (curOnlyCur.map SrcRow.count).sum
        - (curOnlyBase.map SrcRow.score).sum / (curOnlyBase.map SrcRow.count).sum
      = -(3/20)
    ∧ ¬ (|(-(2/5) : ℚ) - -(3/20)| ≤ 1/1000000) := by
  refine ⟨?_, ?_, ?_⟩
  · norm_num [decompose, decomposeTable, keysOf, aggScore, aggCount, mkGRow,
      skipnaSum3, ffillCell, curOnlyCur, curOnlyBase, List.dedup]
  · norm_num [curOnlyCur, curOnlyBase]
  · intro h
    rw [show ((-(2/5) : ℚ) - -(3/20)) = -(1/4) by norm_num, abs_neg,
      abs_of_pos (by norm_num : (0:ℚ) < 1/4)] at h
    norm_num at h

/-! ## C2 -/

theorem posMass_cons (x : ℚ) (xs : List ℚ) :
    posMass (x :: xs) = (if 0 < x then x else 0) + posMass xs := by
  by_cases h : 0 < x <;> simp [posMass, List.filter_cons, h]

theorem negMass_cons (x : ℚ) (xs : List ℚ) :
    negMass (x :: xs) = (if x < 0 then |x| else 0) + negMass xs := by
  by_cases h : x < 0 <;> simp [negMass, List.filter_cons, h]

theorem posMass_nonneg (ts : List ℚ) : 0 ≤ posMass ts := by
  induction ts with
  | nil => simp [posMass]
  | cons x xs ih =>
    rw [posMass_cons]
    by_cases h : 0 < x
    · rw [if_pos h]; linarith
    · rw [if_neg h]; linarith

theorem negMass_nonneg (ts : List ℚ) : 0 ≤ negMass ts := by
  induction ts with
  | nil => simp [negMass]
  | cons x xs ih =>
    rw [negMass_cons]
    by_cases h : x < 0
    · rw [if_pos h]
      have := abs_nonneg x
      linarith
    · rw [if_neg h]; linarith

theorem sum_eq_posMass_sub_negMass (ts : List ℚ) :
    ts.sum = posMass ts - negMass ts := by
  induction ts with
  | nil => simp [posMass, negMass]
  | cons x xs ih =>
    rw [List.sum_cons, posMass_cons, negMass_cons, ih]
    rcases lt_trichotomy x 0 with h | h | h
    · rw [if_neg (by linarith), if_pos h, abs_of_neg h]
      ring
    · subst h
      simp
    · rw [if_pos h, if_neg (by linarith)]
      ring

theorem sum_map_sscScale (Lp Ln d : ℚ) (ts : List ℚ) :
    (ts.map (sscScale Lp Ln d)).sum
      = kposOf Lp d * posMass ts - knegOf Ln d * negMass ts := by
  induction ts with
  | nil => simp [posMass, negMass]
  | cons x xs ih =>
    rw [List.map_cons, List.sum_cons, posMass_cons, negMass_cons, ih]
    rcases lt_trichotomy x 0 with h | h | h
    · rw [sscScale, if_neg (by linarith), if_pos h, if_neg (by linarith), if_pos h,
        abs_of_neg h]
      ring
    · subst h
      rw [sscScale, if_neg (lt_irrefl 0), if_neg (lt_irrefl 0),
        if_neg (lt_irrefl 0), if_neg (lt_irrefl 0)]
      ring
    · rw [sscScale, if_pos h, if_pos h, if_neg (by linarith)]
      ring

/-- The pre-rounding rescaled values of `sign_split_compress` sum exactly
to the signed sum of the table's `总影响值` column. -/
theorem sscScale_sum (ts : List ℚ) :
    (ts.map (sscScale (posMass ts) (negMass ts) ts.sum)).sum = ts.sum := by
  rw [sum_map_sscScale]
  have hd := sum_eq_posMass_sub_negMass ts
  have hLp := posMass_nonneg ts
  have hLn := negMass_nonneg ts
  unfold kposOf knegOf
  by_cases hp : posMass ts = 0
  · by_cases hn : negMass ts = 0
    · rw [if_pos hp, if_pos hn, hd, hp, hn]
      ring
    · have h2 : max 0 (-ts.sum) = negMass ts := by
        rw [hd, hp, zero_sub, neg_neg]
        exact max_eq_right hLn
      rw [if_pos hp, if_neg hn, h2, div_mul_cancel₀ _ hn, hd, hp]
      ring
  · by_cases hn : negMass ts = 0
    · have h1 : max 0 ts.sum = posMass ts := by
        rw [hd, hn, sub_zero]
        exact max_eq_right hLp
      rw [if_neg hp, if_pos hn, h1, div_mul_cancel₀ _ hp, hd, hn]
      ring
    · rw [if_neg hp, if_neg hn, div_mul_cancel₀ _ hp, div_mul_cancel₀ _ hn]
      rcases le_total 0 ts.sum with h | h
      · rw [max_eq_right h, max_eq_left (by linarith)]
        ring
      · rw [max_eq_left h, max_eq_right (by linarith)]
        ring

/-- Banker's rounding moves a value by at most one half. -/
theorem roundHalfEven_err (q : ℚ) : |(roundHalfEven q : ℚ) - q| ≤ 1/2 := by
  unfold roundHalfEven
  have h1 : (⌊q⌋ : ℚ) ≤ q := Int.floor_le q
  have h2 : q < ⌊q⌋ + 1 := Int.lt_floor_add_one q
  by_cases hlt : q - ⌊q⌋ < 1/2
  · rw [if_pos hlt, abs_le]
    constructor <;> linarith
  · rw [if_neg hlt]
    by_cases hgt : 1/2 < q - ⌊q⌋
    · rw [if_pos hgt, abs_le]
      push_cast
      constructor <;> linarith
    · rw [if_neg hgt]
      have heq : q - ⌊q⌋ = 1/2 := le_antisymm (le_of_not_lt hgt) (le_of_not_lt hlt)
      by_cases hev : ⌊q⌋ % 2 = 0
      · rw [if_pos hev, abs_le]
        constructor <;> linarith
      · rw [if_neg hev, abs_le]
        push_cast
        constructor <;> linarith

/-- Rounding to six decimals moves a value by at most `5e-7`. -/
theorem round6_err (q : ℚ) : |round6 q - q| ≤ 1/2000000 := by
  have h := roundHalfEven_err (q * 1000000)
  have he : round6 q - q = ((roundHalfEven (q * 1000000) : ℚ) - q * 1000000) / 1000000 := by
    unfold round6
    ring
  rw [he, abs_div, abs_of_pos (by norm_num : (0:ℚ) < 1000000)]
  rw [div_le_iff₀ (by norm_num : (0:ℚ) < 1000000)]
  calc |(roundHalfEven (q * 1000000) : ℚ) - q * 1000000| ≤ 1/2 := h
    _ = 1/2000000 * 1000000 := by norm_num

/-- Summing six-decimal rounded values moves a list sum by at most
`5e-7` per row. -/
theorem sum_map_round6_err (l : List ℚ) :
    |(l.map round6).sum - l.sum| ≤ (l.length : ℚ) / 2000000 := by
  induction l with
  | nil => simp
  | cons x xs ih =>
    have hx := round6_err x
    rw [List.map_cons, List.sum_cons, List.sum_cons, List.length_cons]
    have hsplit : round6 x + (xs.map round6).sum - (x + xs.sum)
        = (round6 x - x) + ((xs.map round6).sum - xs.sum) := by ring
    rw [hsplit]
    calc |(round6 x - x) + ((xs.map round6).sum - xs.sum)|
        ≤ |round6 x - x| + |(xs.map round6).sum - xs.sum| := abs_add _ _
      _ ≤ 1/2000000 + (xs.length : ℚ) / 2000000 := by linarith
      _ = ((xs.length : ℚ) + 1) / 2000000 := by ring
      _ = ((xs.length + 1 : ℕ) : ℚ) / 2000000 := by push_cast; ring

/-- C2 (amended): the sum of `转化影响值` over a table equals the sum of
that same (filtered) table's `总影响值` — the code's `Δ`, not the
period-wide aggregate delta — exactly before rounding, hence within
`5e-7` per row after the 6-decimal rounding. -/
theorem c2_normalized_sum_filtered_delta {K : Type} (rows : List (GRow K)) :
    |((signSplitCompress rows).map GRow.normEffect).sum
      - (rows.map GRow.totalEffect).sum| ≤ (rows.length : ℚ) / 2000000 := by
  unfold signSplitCompress
  rw [List.map_map]
  have hmaps : rows.map (GRow.normEffect ∘ fun r =>
      { r with normEffect := round6 (sscScale (posMass (rows.map GRow.totalEffect))
          (negMass (rows.map GRow.totalEffect)) (rows.map GRow.totalEffect).sum
          r.totalEffect) })
      = ((rows.map GRow.totalEffect).map
          (sscScale (posMass (rows.map GRow.totalEffect))
            (negMass (rows.map GRow.totalEffect))
            (rows.map GRow.totalEffect).sum)).map round6 := by
    rw [List.map_map, List.map_map]
    rfl
  rw [hmaps]
  have hs := sscScale_sum (rows.map GRow.totalEffect)
  have herr := sum_map_round6_err ((rows.map GRow.totalEffect).map
    (sscScale (posMass (rows.map GRow.totalEffect))
      (negMass (rows.map GRow.totalEffect)) (rows.map GRow.totalEffect).sum))
  rw [hs] at herr
  rw [List.length_map, List.length_map] at herr
  exact herr

/-- The surviving decomposition row (group 0) of the thresholding example. -/
def threshRowA : GRow ℕ :=
  { key := 0, curScore := 100, curCount := 100, baseScore := 50, baseCount := 100,
    baseRate := some (1/2), curRate := some 1,
    baseWeight := some (10/11), curWeight := some (10/11),
    deltaRate := some (1/2), deltaWeight := some 0,
    serviceEffect := some (5/11), weightEffect := some 0, interEffect := some 0,
    totalEffect := 5/11 }

/-- The below-threshold decomposition row (group 1) of the thresholding
example. -/
def threshRowB : GRow ℕ :=
  { key := 1, curScore := 10, curCount := 10, baseScore := 5, baseCount := 10,
    baseRate := some (1/2), curRate := some 1,
    baseWeight := some (1/11), curWeight := some (1/11),
    deltaRate := some (1/2), deltaWeight := some 0,
    serviceEffect := some (1/22), weightEffect := some 0, interEffect := some 0,
    totalEffect := 1/22 }

theorem decompose_thresh_eq :
    decompose threshCur threshBase = [threshRowA, threshRowB] := by
  norm_num [decompose, decomposeTable, keysOf, aggScore, aggCount, mkGRow,
    skipnaSum3, threshCur, threshBase, List.dedup, threshRowA, threshRowB,
    GRow.mk.injEq]

theorem zySatisAnaly_thresh_eq :
    zySatisAnaly threshCur threshBase 50 true
      = Except.ok [{ threshRowA with tag := "非主要变动影响" }] := by
  unfold zySatisAnaly
  rw [decompose_thresh_eq]
  norm_num [threshRowA, threshRowB, addReplacementQuality, addLeaveOneOut,
    looRow, addOpTag, tagOf, sortByAbsDesc, insertByAbsDesc, List.filter_cons,
    GRow.mk.injEq, Except.pure, pure, Except.bind, bind, abs_of_pos, abs_of_neg]

/-- Counterexample to C2 as stated: for the thresholding example the
period-wide aggregate delta is `1/2` (nonzero), yet the normalized
effects of the filtered output table sum to `90909/200000 = 0.454545`,
off by about `0.045 > 1e-6`; and on a table with `总影响值` values
`[+10, -4, -4]` the code rescales the positive row to `+2` (its `Δ` is
the table sum `+2`, not the claim's period-wide `+3`) and both negative
rows to `0`. -/
theorem c2_counterexample :
    ((zySatisAnaly threshCur threshBase 50 true).map
        (fun t => ((signSplitCompress t).map GRow.normEffect).sum))
      = Except.ok (90909/200000)
    ∧ (threshCur.map SrcRow.score).sum / (threshCur.map SrcRow.count).sum
        - (threshBase.map SrcRow.score).sum / (threshBase.map SrcRow.count).sum
      = 1/2
    ∧ ¬ (|(90909/200000 : ℚ) - 1/2| ≤ 1/1000000)
    ∧ (signSplitCompress [onlyTotal 10, onlyTotal (-4), onlyTotal (-4)]).map
        (fun r => (r.totalEffect, r.normEffect))
      = [(10, 2), (-4, 0), (-4, 0)] := by
  refine ⟨?_, ?_, ?_, ?_⟩
  · rw [zySatisAnaly_thresh_eq]
    norm_num [threshRowA, signSplitCompress, sscScale, kposOf, knegOf,
      posMass, negMass, round6, roundHalfEven, List.filter_cons, Except.map]
    rw [show Int.fract ((5000000:ℚ)/11) = 5/11 by
      unfold Int.fract
      norm_num]
    norm_num
  · norm_num [threshCur, threshBase]
  · intro h
    rw [show ((90909/200000 : ℚ) - 1/2) = -(9091/200000) by norm_num, abs_neg,
      abs_of_pos (by norm_num : (0:ℚ) < 9091/200000)] at h
    norm_num at h
  · norm_num [onlyTotal, signSplitCompress, sscScale, kposOf, knegOf,
      posMass, negMass, round6, roundHalfEven, List.filter_cons, abs_of_neg,
      Prod.ext_iff]

/-! ## C3 -/

theorem roundHalfEven_nonneg (q : ℚ) (h : 0 ≤ q) : 0 ≤ roundHalfEven q := by
  unfold roundHalfEven
  have hf : (0:ℤ) ≤ ⌊q⌋ := Int.floor_nonneg.mpr h
  by_cases h1 : q - ⌊q⌋ < 1/2
  · rw [if_pos h1]
    exact hf
  · rw [if_neg h1]
    by_cases h2 : 1/2 < q - ⌊q⌋
    · rw [if_pos h2]
      omega
    · rw [if_neg h2]
      by_cases h3 : ⌊q⌋ % 2 = 0
      · rw [if_pos h3]
        exact hf
      · rw [if_neg h3]
        omega

theorem roundHalfEven_nonpos (q : ℚ) (h : q ≤ 0) : roundHalfEven q ≤ 0 := by
  unfold roundHalfEven
  have hf : ⌊q⌋ ≤ 0 := by
    calc ⌊q⌋ ≤ ⌊(0:ℚ)⌋ := Int.floor_le_floor h
      _ = 0 := Int.floor_zero
  have hne : (1:ℚ)/2 < q - ⌊q⌋ → ⌊q⌋ + 1 ≤ 0 := by
    intro h2
    rcases lt_or_eq_of_le hf with hlt | heq
    · omega
    · exfalso
      rw [heq] at h2
      push_cast at h2
      linarith
  by_cases h1 : q - ⌊q⌋ < 1/2
  · rw [if_pos h1]
    exact hf
  · rw [if_neg h1]
    by_cases h2 : 1/2 < q - ⌊q⌋
    · rw [if_pos h2]
      exact hne h2
    · rw [if_neg h2]
      by_cases h3 : ⌊q⌋ % 2 = 0
      · rw [if_pos h3]
        exact hf
      · rw [if_neg h3]
        rcases lt_or_eq_of_le hf with hlt | heq
        · omega
        · exfalso
          have hfr : q - (⌊q⌋ : ℚ) = 1/2 :=
            le_antisymm (le_of_not_lt h2) (le_of_not_lt h1)
          rw [heq] at hfr
          push_cast at hfr
          linarith

theorem round6_nonneg (q : ℚ) (h : 0 ≤ q) : 0 ≤ round6 q := by
  unfold round6
  have := roundHalfEven_nonneg (q * 1000000) (by positivity)
  positivity

theorem round6_nonpos (q : ℚ) (h : q ≤ 0) : round6 q ≤ 0 := by
  unfold round6
  have h1 : roundHalfEven (q * 1000000) ≤ 0 :=
    roundHalfEven_nonpos _ (by nlinarith)
  have h2 : ((roundHalfEven (q * 1000000) : ℤ) : ℚ) ≤ 0 := by exact_mod_cast h1
  linarith

theorem kposOf_nonneg (Lp d : ℚ) (h : 0 ≤ Lp) : 0 ≤ kposOf Lp d := by
  unfold kposOf
  split_ifs
  · exact le_refl 0
  · exact div_nonneg (le_max_left 0 d) h

theorem knegOf_nonneg (Ln d : ℚ) (h : 0 ≤ Ln) : 0 ≤ knegOf Ln d := by
  unfold knegOf
  split_ifs
  · exact le_refl 0
  · exact div_nonneg (le_max_left 0 (-d)) h

theorem sscScale_nonneg (Lp Ln d x : ℚ) (hLp : 0 ≤ Lp) (hx : 0 ≤ x) :
    0 ≤ sscScale Lp Ln d x := by
  unfold sscScale
  split_ifs with h1 h2
  · exact mul_nonneg hx (kposOf_nonneg Lp d hLp)
  · linarith
  · exact le_refl 0

theorem sscScale_nonpos (Lp Ln d x : ℚ) (hLn : 0 ≤ Ln) (hx : x ≤ 0) :
    sscScale Lp Ln d x ≤ 0 := by
  unfold sscScale
  split_ifs with h1 h2
  · linarith
  · exact mul_nonpos_of_nonpos_of_nonneg hx (knegOf_nonneg Ln d hLn)
  · exact le_refl 0

/-- C3 (amended): every `转化影响值` has the same weak sign as its row's
`总影响值` (their product is non-negative), and a zero `总影响值` gives
a zero `转化影响值`.  The converse direction of the claim's "iff" fails:
a row with nonzero `总影响值` can still be normalized to 0 (see the
counterexample). -/
theorem c3_sign_preserved {K : Type} (rows : List (GRow K)) (r : GRow K)
    (h : r ∈ signSplitCompress rows) :
    0 ≤ r.normEffect * r.totalEffect ∧ (r.totalEffect = 0 → r.normEffect = 0) := by
  unfold signSplitCompress at h
  rcases List.mem_map.mp h with ⟨o, ho, rfl⟩
  constructor
  · show 0 ≤ round6 (sscScale _ _ _ o.totalEffect) * o.totalEffect
    rcases le_total 0 o.totalEffect with ht | ht
    · exact mul_nonneg
        (round6_nonneg _ (sscScale_nonneg _ _ _ _
          (posMass_nonneg (rows.map GRow.totalEffect)) ht))
        ht
    · have h1 : round6 (sscScale (posMass (rows.map GRow.totalEffect))
          (negMass (rows.map GRow.totalEffect))
          (rows.map GRow.totalEffect).sum o.totalEffect) ≤ 0 :=
        round6_nonpos _ (sscScale_nonpos _ _ _ _
          (negMass_nonneg (rows.map GRow.totalEffect)) ht)
      nlinarith [mul_nonneg (neg_nonneg.mpr h1) (neg_nonneg.mpr ht)]
  · intro ht
    show round6 (sscScale _ _ _ o.totalEffect) = 0
    rw [ht]
    norm_num [sscScale, round6, roundHalfEven]

/-- Witness for C3 on a one-row table with `总影响值 = 5`. -/
theorem c3_sign_preserved_witness :
    (({ onlyTotal 5 with normEffect := 5 } : GRow ℕ) ∈ signSplitCompress [onlyTotal 5])
    ∧ (0 ≤ ({ onlyTotal 5 with normEffect := 5 } : GRow ℕ).normEffect
          * ({ onlyTotal 5 with normEffect := 5 } : GRow ℕ).totalEffect
       ∧ (({ onlyTotal 5 with normEffect := 5 } : GRow ℕ).totalEffect = 0
           → ({ onlyTotal 5 with normEffect := 5 } : GRow ℕ).normEffect = 0)) := by
  have hmem : ({ onlyTotal 5 with normEffect := 5 } : GRow ℕ)
      ∈ signSplitCompress [onlyTotal 5] := by
    norm_num [onlyTotal, signSplitCompress, sscScale, kposOf, knegOf, posMass,
      negMass, round6, roundHalfEven, List.filter_cons, GRow.mk.injEq]
  exact ⟨hmem, c3_sign_preserved [onlyTotal 5] _ hmem⟩

/-- Counterexample to C3's "zero iff source zero": a table with
`总影响值` values `[+5, -3, -2]` has signed sum `Δ = 0`, so both scale
factors are 0 and every row is normalized to 0 — including rows whose
`总影响值` is nonzero. -/
theorem c3_counterexample :
    (signSplitCompress [onlyTotal 5, onlyTotal (-3), onlyTotal (-2)]).map
        (fun r => (r.totalEffect, r.normEffect)) = [(5, 0), (-3, 0), (-2, 0)]
    ∧ ¬ ((5:ℚ) = 0) := by
  constructor
  · norm_num [onlyTotal, signSplitCompress, sscScale, kposOf, knegOf, posMass,
      negMass, round6, roundHalfEven, List.filter_cons, abs_of_neg, Prod.ext_iff]
  · norm_num

/-! ## C4 -/

/-- C4 shows a defect: with the replacement flag disabled the per-group
operation does not return a table at all.  Line 52 of the source
(`replace_gap = df['净替代质量差']` inside `add_op_tag`) reads the
method-2 column unconditionally, and `zy_satis_analy` only creates that
column when `enable_method2` is truthy, so every disabled run raises a
pandas `KeyError` before any label is assigned. -/
theorem c4_disabled_flag_raises_keyerror :
    zySatisAnaly threshCur threshBase 0 false
      = Except.error "KeyError: 净替代质量差" := by
  rw [zySatisAnaly, decompose_thresh_eq]
  norm_num [threshRowA, threshRowB, addLeaveOneOut, looRow, addOpTag,
    List.filter_cons, Except.bind, bind]

/-! ## C5 -/

/-- C5 (amended): the ratio fill is one-directional.  When a group's
current count sum is zero and its base count sum is nonzero, the current
ratio is filled from the base ratio (so base-only groups keep a defined
pair of ratios); a group with data only in the current period keeps an
undefined base ratio. -/
theorem c5_ffill_base_to_cur_only {K : Type} (BT CT : ℚ) (cS cC bS bC : K → ℚ)
    (k : K) (hcc : cC k = 0) (hbc : bC k ≠ 0) :
    (mkGRow BT CT cS cC bS bC k).curRate = some (bS k / bC k)
    ∧ (mkGRow BT CT cS cC bS bC k).baseRate = some (bS k / bC k) := by
  constructor <;> simp [mkGRow, hcc, hbc]

/-- Witness for C5 at a group with 0 current count and base sums 8/10. -/
theorem c5_ffill_witness :
    ((fun _ : ℕ => (0:ℚ)) 0 = 0 ∧ (fun _ : ℕ => (10:ℚ)) 0 ≠ 0)
    ∧ (mkGRow 10 0 (fun _ => 7) (fun _ => 0) (fun _ => 8) (fun _ => 10) 0).curRate
        = some ((8:ℚ) / 10)
    ∧ (mkGRow 10 0 (fun _ => 7) (fun _ => 0) (fun _ => 8) (fun _ => 10) 0).baseRate
        = some ((8:ℚ) / 10) :=
  ⟨⟨rfl, by norm_num⟩,
    c5_ffill_base_to_cur_only 10 0 (fun _ => 7) (fun _ => 0) (fun _ => 8)
      (fun _ => 10) 0 rfl (by norm_num)⟩

/-- Counterexample to C5 as stated: in the outer-joined table for
`curOnlyCur`/`curOnlyBase`, group 1 has data only in the current period
(base count 0); its current ratio is defined (`1/2`) but its base ratio
stays `none` — it is not filled from the current period, so the fill does
not work "in both directions". -/
theorem c5_counterexample :
    (decompose curOnlyCur curOnlyBase).map
        (fun r => (r.baseCount, r.baseRate, r.curRate))
      = [((0:ℚ), (none : FVal), some ((1:ℚ)/2)),
         ((10:ℚ), some ((4:ℚ)/5), some ((4:ℚ)/5))]
    ∧ (none : FVal) ≠ some ((1:ℚ)/2) := by
  constructor
  · norm_num [decompose, decomposeTable, keysOf, aggScore, aggCount, mkGRow,
      skipnaSum3, ffillCell, curOnlyCur, curOnlyBase, List.dedup, Prod.ext_iff]
  · intro h
    exact Option.noConfusion h

/-! ## C6 -/

/-- C6 (amended): when a period's total count sum over the table is zero,
every group's volume weight for that period is missing (the source
divides by the zero total, a `0/0 = NaN` for the non-negative count sums
the pipeline produces), not the number 0; downstream arithmetic stays
well-defined because the skip-NA row sum then makes `总影响值` equal 0.
The non-negativity hypothesis pins the float semantics: with all counts
non-negative and a zero total, each division is `0/0` (NaN), never
`x/0 = ±inf`. -/
theorem c6_zero_total_weight_missing {K : Type} [DecidableEq K]
    (keys : List K) (cS cC bS bC : K → ℚ)
    (_hnn : ∀ k ∈ keys, 0 ≤ bC k) (h0 : (keys.map bC).sum = 0) :
    ∀ r ∈ decomposeTable keys cS cC bS bC,
      r.baseWeight = none ∧ r.totalEffect = 0 := by
  intro r hr
  unfold decomposeTable at hr
  rcases List.mem_map.mp hr with ⟨k, hk, rfl⟩
  constructor
  · simp [mkGRow, h0]
  · simp [mkGRow, h0, skipnaSum3]

/-- Witness for C6: a single group with current data only. -/
theorem c6_zero_total_witness :
    ((∀ k ∈ [0], 0 ≤ (fun _ : ℕ => (0:ℚ)) k)
      ∧ (([0].map (fun _ : ℕ => (0:ℚ))).sum = 0))
    ∧ ∀ r ∈ decomposeTable [0] (fun _ : ℕ => (1:ℚ)) (fun _ => 1)
          (fun _ => 0) (fun _ => 0),
        r.baseWeight = none ∧ r.totalEffect = 0 :=
  ⟨⟨by norm_num, by norm_num⟩,
    c6_zero_total_weight_missing [0] (fun _ => 1) (fun _ => 1) (fun _ => 0)
      (fun _ => 0) (by norm_num) (by norm_num)⟩

/-- Counterexample to C6 as stated: with an empty base period the base
count total is 0 and the single group's `基期评价权重` is missing
(`none`, the embedded NaN), not the defined number 0. -/
theorem c6_counterexample :
    (decompose [⟨0, 1, 1⟩] ([] : List (SrcRow ℕ))).map GRow.baseWeight = [none]
    ∧ (none : FVal) ≠ some (0:ℚ) := by
  constructor
  · norm_num [decompose, decomposeTable, keysOf, aggScore, aggCount, mkGRow,
      skipnaSum3, ffillCell, List.dedup]
  · intro h
    exact Option.noConfusion h

/-! ## C7 -/

/-- C7: for a row with defined `服务满意度差值 < 0`, `评价权重差值 < 0`
and `总影响值 < 0` (no threshold gate), the classifier assigns the three
decline sub-labels by the 1.5-dominance comparison of
`|服务满意度影响值|` against `|评价权重影响值|`, except that the
insufficient-data mask (all three magnitudes at most `delta_thresh`),
applied last, overwrites the sub-label. -/
theorem c7_decline_subclassification {K : Type} (r : GRow K) (s w se we : ℚ)
    (hs : r.deltaRate = some s) (hw : r.deltaWeight = some w)
    (hse : r.serviceEffect = some se) (hwe : r.weightEffect = some we)
    (hs0 : s < 0) (hw0 : w < 0) (hI : r.totalEffect < 0) :
    tagOf r =
      if |s| ≤ 5/1000 ∧ |w| ≤ 5/1000 ∧ |r.totalEffect| ≤ 5/1000
      then "基期或现期数据不足"
      else if 3/2 * |we| < |se| then "服务下降，主要因服务质量下降"
      else if 3/2 * |se| < |we| then "服务下降，主要因流量下降"
      else "服务下降，服务+流量双重影响" := by
  unfold tagOf
  rw [hs, hw, hse, hwe]
  simp only [fgt_some, flt_some, fle_some, fabs_some, fmul_some_some, fgtF_some_some]
  have h1 : decide (s < 0) = true := decide_eq_true hs0
  have h2 : decide (w < 0) = true := decide_eq_true hw0
  have h3 : decide (r.totalEffect < 0) = true := decide_eq_true hI
  rw [h1, h2, h3]
  simp only [Bool.true_and, Bool.and_true, Bool.and_self, if_true,
    Bool.and_eq_true, decide_eq_true_eq, and_assoc]

/-- A concrete decline row: both deltas `-1/10`, `服务满意度影响值
= -1/5`, `评价权重影响值 = -1/10`, `总影响值 = -3/10`. -/
def c7row : GRow ℕ :=
  { key := 0, curScore := 0, curCount := 0, baseScore := 0, baseCount := 0,
    deltaRate := some (-(1/10)), deltaWeight := some (-(1/10)),
    serviceEffect := some (-(1/5)), weightEffect := some (-(1/10)),
    totalEffect := -(3/10) }

/-- Witness for C7: the concrete decline row is service-dominant
(`1/5 > 1.5 × 1/10`), far from the insufficient-data mask, and gets the
quality-driven decline label. -/
theorem c7_witness :
    (c7row.deltaRate = some (-(1/10)) ∧ c7row.deltaWeight = some (-(1/10))
      ∧ c7row.serviceEffect = some (-(1/5)) ∧ c7row.weightEffect = some (-(1/10))
      ∧ (-(1/10) : ℚ) < 0 ∧ c7row.totalEffect < 0)
    ∧ tagOf c7row = "服务下降，主要因服务质量下降" := by
  have h := c7_decline_subclassification c7row (-(1/10)) (-(1/10)) (-(1/5))
    (-(1/10)) rfl rfl rfl rfl (by norm_num) (by norm_num) (by norm_num [c7row])
  refine ⟨⟨rfl, rfl, rfl, rfl, by norm_num, by norm_num [c7row]⟩, ?_⟩
  rw [h]
  norm_num [c7row, abs_of_neg]

/-! ## C8 -/

/-- C8: zero-denominator conditions are not fatal.  Leave-one-out on a
single-group table leaves the excluded total at 0 and yields a missing
`留一法净影响` (the guarded `np.where` branch), not a division error;
an empty grow or shrink subset makes the two replacement columns missing
for every row; and both estimators always return a table with one output
row per input row. -/
theorem c8_zero_denominators_nonfatal (K : Type) :
    (∀ r : GRow K, (addLeaveOneOut [r]).map GRow.looNetImpact = [none])
    ∧ (∀ rows : List (GRow K),
        ((rows.filter (fun r => fgt r.deltaWeight 0)).isEmpty
          ∨ (rows.filter (fun r => flt r.deltaWeight 0)).isEmpty) →
        (addReplacementQuality rows).map (fun r => (r.replQuality, r.netReplGap))
          = rows.map (fun _ => ((none : FVal), (none : FVal))))
    ∧ (∀ rows : List (GRow K),
        (addLeaveOneOut rows).length = rows.length
        ∧ (addReplacementQuality rows).length = rows.length) := by
  refine ⟨?_, ?_, ?_⟩
  · intro r
    simp [addLeaveOneOut, looRow]
  · intro rows h
    unfold addReplacementQuality
    rw [if_pos h, List.map_map]
    rfl
  · intro rows
    constructor
    · simp [addLeaveOneOut]
    · unfold addReplacementQuality
      by_cases h : ((rows.filter (fun r => fgt r.deltaWeight 0)).isEmpty
          ∨ (rows.filter (fun r => flt r.deltaWeight 0)).isEmpty)
      · rw [if_pos h]
        simp
      · rw [if_neg h]
        simp

/-- Witness for C8 at a one-row table (its `评价权重差值` is NA, so both
the grow and the shrink subset are empty). -/
theorem c8_witness :
    ((addLeaveOneOut [onlyTotal 1]).map GRow.looNetImpact = [none])
    ∧ ((([onlyTotal 1].filter (fun r => fgt r.deltaWeight 0)).isEmpty
          ∨ (([onlyTotal 1].filter (fun r => flt r.deltaWeight 0)).isEmpty))
        ∧ (addReplacementQuality [onlyTotal 1]).map
            (fun r => (r.replQuality, r.netReplGap))
          = [onlyTotal 1].map (fun _ => ((none : FVal), (none : FVal)))) :=
  ⟨(c8_zero_denominators_nonfatal ℕ).1 (onlyTotal 1),
    Or.inl rfl,
    (c8_zero_denominators_nonfatal ℕ).2.1 [onlyTotal 1] (Or.inl rfl)⟩

/-! ## C9 -/

/-- C9 (amended): when the excluded current total, the current total and
the base total are all nonzero (so `S_cur_excl`, `S_cur_all` and
`S_base_all` are all defined), `留一法净影响` equals
`(S_cur_excl - S_base_all) - (S_cur_all - S_base_all)`, which simplifies
to `S_cur_excl - S_cur_all`.  When the base total is zero, `S_base_all`
is NaN and the NaN-propagating subtraction makes the whole value missing
instead (see the counterexample), so the claim's "including when
S_base_all is undefined" fails. -/
theorem c9_loo_identity {K : Type} (cTS cTC bTS bTC : ℚ) (r : GRow K)
    (hexcl : cTC - r.curCount ≠ 0) (hct : cTC ≠ 0) (hbt : bTC ≠ 0) :
    (looRow cTS cTC bTS bTC r).looNetImpact
      = some (((cTS - r.curScore) / (cTC - r.curCount) - bTS / bTC)
              - (cTS / cTC - bTS / bTC))
    ∧ (looRow cTS cTC bTS bTC r).looNetImpact
      = some ((cTS - r.curScore) / (cTC - r.curCount) - cTS / cTC) := by
  constructor
  · simp [looRow, hexcl, hct, hbt]
  · simp [looRow, hexcl, hct, hbt]

/-- Witness for C9 at totals `cur 3/4`, `base 1/2` and a row with
current sums `1/1`. -/
theorem c9_loo_identity_witness :
    (((4:ℚ) - (onlyTotal 0).curCount ≠ 0 ∧ (4:ℚ) ≠ 0 ∧ (2:ℚ) ≠ 0))
    ∧ (looRow 3 4 1 2 (onlyTotal 0)).looNetImpact
        = some ((((3:ℚ) - (onlyTotal 0).curScore) / (4 - (onlyTotal 0).curCount)
            - 1/2) - (3/4 - 1/2))
    ∧ (looRow 3 4 1 2 (onlyTotal 0)).looNetImpact
        = some (((3:ℚ) - (onlyTotal 0).curScore) / (4 - (onlyTotal 0).curCount)
            - 3/4) :=
  ⟨⟨by norm_num [onlyTotal], by norm_num, by norm_num⟩,
    c9_loo_identity 3 4 1 2 (onlyTotal 0) (by norm_num [onlyTotal])
      (by norm_num) (by norm_num)⟩

/-- Counterexample to C9 as stated: two groups with current sums `1/1`
each and an all-zero base period.  `S_cur_excl = 1` and `S_cur_all = 1`
are both defined, so the claim predicts `留一法净影响 = some (1 - 1)`,
but the base total is zero, `S_base_all` is NaN, and the code's
`(S_cur_excl - S_base_all) - (S_cur_all - S_base_all)` is missing for
both rows. -/
theorem c9_counterexample :
    (addLeaveOneOut zeroBaseRows).map GRow.looNetImpact = [none, none]
    ∧ (zeroBaseRows.map GRow.baseCount).sum = 0
    ∧ (none : FVal) ≠ some ((1:ℚ) - 1) := by
  refine ⟨?_, ?_, ?_⟩
  · norm_num [addLeaveOneOut, looRow, zeroBaseRows]
  · norm_num [zeroBaseRows]
  · intro h
    exact Option.noConfusion h

/-! ## C10 -/

/-- C10: `总影响值` is always a defined number because the row sum skips
missing cells.  For a group present only in the current period (zero base
count, nonzero current count) the base ratio is missing and all three
effect cells are missing, so its `总影响值` is 0 — while its current
ratio is still defined. -/
theorem c10_total_effect_defined_cur_only {K : Type} (BT CT : ℚ)
    (cS cC bS bC : K → ℚ) (k : K) (hb : bC k = 0) (hc : cC k ≠ 0) :
    (mkGRow BT CT cS cC bS bC k).serviceEffect = none
    ∧ (mkGRow BT CT cS cC bS bC k).weightEffect = none
    ∧ (mkGRow BT CT cS cC bS bC k).interEffect = none
    ∧ (mkGRow BT CT cS cC bS bC k).curRate = some (cS k / cC k)
    ∧ (mkGRow BT CT cS cC bS bC k).totalEffect = 0 := by
  refine ⟨?_, ?_, ?_, ?_, ?_⟩ <;> simp [mkGRow, hb, hc, skipnaSum3]

/-- Witness for C10: a group with current sums `5/10`, no base data, and
nonzero period totals. -/
theorem c10_witness :
    ((fun _ : ℕ => (0:ℚ)) 0 = 0 ∧ (fun _ : ℕ => (10:ℚ)) 0 ≠ 0)
    ∧ (mkGRow 10 20 (fun _ => 5) (fun _ => 10) (fun _ => 0) (fun _ => 0) 0).serviceEffect
        = none
    ∧ (mkGRow 10 20 (fun _ => 5) (fun _ => 10) (fun _ => 0) (fun _ => 0) 0).weightEffect
        = none
    ∧ (mkGRow 10 20 (fun _ => 5) (fun _ => 10) (fun _ => 0) (fun _ => 0) 0).interEffect
        = none
    ∧ (mkGRow 10 20 (fun _ => 5) (fun _ => 10) (fun _ => 0) (fun _ => 0) 0).curRate
        = some ((5:ℚ) / 10)
    ∧ (mkGRow 10 20 (fun _ => 5) (fun _ => 10) (fun _ => 0) (fun _ => 0) 0).totalEffect
        = 0 := by
  refine ⟨⟨rfl, by norm_num⟩, ?_⟩
  exact c10_total_effect_defined_cur_only 10 20 (fun _ => 5) (fun _ => 10)
    (fun _ => 0) (fun _ => 0) 0 rfl (by norm_num)
